import Mathlib

/-!
# Verification of the game-server core (2D platform shooter)

Shallow embedding of the TypeScript source of the authoritative game
server.  JavaScript numbers are modelled as rationals (`ℚ`); every
arithmetic operation appearing in the embedded code (`+`, `-`, `*`,
`min`, `max`, comparisons, division) is exact on the inputs used by the
theorems below, so the rational model agrees with IEEE double evaluation
there.  `Math.sqrt` is modelled by `Rat.sqrt`, which agrees with the
float square root on perfect squares of dyadic rationals — the only
points at which theorems below evaluate it.

The embedding follows the *newer* `Match` implementation (second class in
`src/services/Match.ts`, the one referenced by the claims) together with
its companion `Player` entity (`src/game/entities/Player.ts`), the
`Projectile` entities, and the constants of `src/services/MatchMaker.ts`.
-/

set_option maxRecDepth 8000

namespace GameServer

/-- `inputVector.mouse` payload: `{x, y, id}` (`src/game/systems/Vector.ts`). -/
structure Mouse where
  x : ℚ
  y : ℚ
  id : String
deriving DecidableEq, Repr

/-- `InputVector` of `src/game/systems/Vector.ts`: `{x, y, mouse?}`. -/
structure InputVector where
  x : ℚ
  y : ℚ
  mouse : Option Mouse := none
deriving DecidableEq, Repr

/-- `InputPayload` of `src/services/Match.ts`: `{tick, vector}`. -/
structure InputPayload where
  tick : ℕ
  vector : InputVector
deriving DecidableEq, Repr

/-- Game bounds object `{left, right, top, bottom}` passed to each player. -/
structure Bounds where
  left : ℚ
  right : ℚ
  top : ℚ
  bottom : ℚ
deriving DecidableEq, Repr

/-- `Platform` entity (`src/game/entities/Platform.ts`): `(x, y, width = 500,
height = 30)`, immutable. -/
structure Platform where
  x : ℚ
  y : ℚ
  width : ℚ := 500
  height : ℚ := 30
deriving DecidableEq, Repr

/-- Rectangle bounds returned by `getPlatformBounds` / `getPlayerBounds`. -/
structure Rect where
  left : ℚ
  right : ℚ
  top : ℚ
  bottom : ℚ
deriving DecidableEq, Repr

/-- `Platform.getPlatformBounds()`. -/
def Platform.getPlatformBounds (p : Platform) : Rect :=
  { left := p.x, right := p.x + p.width, top := p.y, bottom := p.y + p.height }

/-! ## Player physics constants (`src/game/entities/Player.ts`) -/

def SPEED : ℚ := 750
def JUMP_STRENGTH : ℚ := 750
def GRAVITY : ℚ := 1500
def MAX_FALL_SPEED : ℚ := 1500

/-- The motion-state fields of the `Player` class: position, velocity and the
jump/surface flags.  `Player.update` reads and writes exactly these fields
(plus `isShooting`, kept separately in `Phys`); grouping them makes the frame
conditions of the update definitional. -/
structure Motion where
  x : ℚ
  y : ℚ
  vx : ℚ
  vy : ℚ
  isOnGround : Bool
  isOnSurface : Bool
  canDoubleJump : Bool
  isJumping : Bool
deriving DecidableEq, Repr

/-- `Player.getPlayerBounds()`: pivot at bottom-center, width 50, height 50. -/
def playerBoundsAt (x y : ℚ) : Rect :=
  { left := x - 25, right := x + 25, bottom := y, top := y - 50 }

/-- `Player.resetJumpState()`. -/
def Motion.resetJumpState (m : Motion) : Motion :=
  { m with canDoubleJump := true, vy := 0, isJumping := false, isOnSurface := true }

/-- `Player.jump(inputVector)`. -/
def Motion.jump (m : Motion) (v : InputVector) : Motion :=
  if m.isOnSurface then
    { m with vy := v.y * JUMP_STRENGTH, canDoubleJump := true,
             isOnSurface := false, isJumping := true }
  else if m.canDoubleJump then
    { m with vy := v.y * JUMP_STRENGTH, canDoubleJump := false }
  else m

/-- `Player.applyGravity(dt)`. -/
def Motion.applyGravity (m : Motion) (dt : ℚ) : Motion :=
  { m with vy := min (m.vy + GRAVITY * dt) MAX_FALL_SPEED }

/-- `Player.getClampedPosition(newX, newY)`. -/
def clampedPosition (gb : Option Bounds) (newX newY : ℚ) : ℚ × ℚ :=
  match gb with
  | some b => (max (b.left + 25) (min newX (b.right - 25)),
               max b.top (min newY b.bottom))
  | none => (newX, newY)

/-- `Player.checkPlatformCollisions()`: first platform (insertion order) that
the falling player lands on or tunnels into; returns its top, if any. -/
def Motion.checkPlatformCollisions (m : Motion) : List Platform → Option ℚ
  | [] => none
  | pf :: rest =>
    let fb := pf.getPlatformBounds
    let pb := playerBoundsAt m.x m.y
    let isGoingDown := decide (0 < m.vy)
    let isOnPlatform := decide (pb.bottom = fb.top)
    let isFallingThroughPlatform :=
      decide (fb.top < pb.bottom) && decide (pb.bottom < fb.bottom)
    let isWithinPlatformWidth :=
      decide (fb.left < pb.right) && decide (pb.left < fb.right)
    if isGoingDown && isWithinPlatformWidth &&
        (isOnPlatform || isFallingThroughPlatform) then
      some fb.top
    else
      m.checkPlatformCollisions rest

/-- The body of `Player.update` restricted to the motion fields (the
`isShooting` write is handled one level up, in `Player.update`; the
`updateLatestState` call only refreshes a broadcast cache and is not
modelled). -/
def Motion.update (m0 : Motion) (platforms : List Platform) (gb : Option Bounds)
    (v : InputVector) (dt : ℚ) : Motion :=
  -- horizontal movement
  let m1 : Motion := { m0 with vx := if v.x ≠ 0 then v.x * SPEED else 0 }
  -- jump request
  let m2 := if v.y < 0 then m1.jump v else m1
  -- gravity
  let m3 := m2.applyGravity dt
  -- integrate
  let newX := m3.x + m3.vx * dt
  let newY := m3.y + m3.vy * dt
  -- clamp into the game bounds
  let c := clampedPosition gb newX newY
  let m4 : Motion := { m3 with x := c.1, y := c.2 }
  -- ground check (`this.y === this.gameBounds?.bottom`)
  let m5 :=
    if (match gb with | some b => decide (m4.y = b.bottom) | none => false) then
      ({ m4 with isOnGround := true }).resetJumpState
    else
      { m4 with isOnGround := false }
  -- platform check; first match snaps the player onto the platform
  let collided := m5.checkPlatformCollisions platforms
  let m6 :=
    match collided with
    | some platformTop => ({ m5 with y := platformTop }).resetJumpState
    | none => m5
  -- `isOnSurface = isOnPlatform || isOnGround`
  { m6 with isOnSurface := collided.isSome || m6.isOnGround }

/-- The remaining mutable gameplay fields of `Player`. -/
structure Phys where
  motion : Motion
  hp : ℚ
  isBystander : Bool
  isShooting : Bool
  isDead : Bool
  kills : ℕ
  deaths : ℕ
deriving DecidableEq, Repr

/-- The `Player` entity (`src/game/entities/Player.ts`).  The input-debt stack
`InputDebt` is a LIFO; here the top of the stack is the head of the list.
The broadcast caches (`lastKnownState`, `lastBroadcastState`) and the
timestamps/timers are not modelled: no claim reads them back. -/
structure Player where
  id : String
  name : String
  phys : Phys
  platforms : List Platform
  gameBounds : Option Bounds
  inputQueue : List InputPayload
  lastProcessedInput : Option InputPayload
  inputDebt : List InputVector
deriving DecidableEq, Repr

/-- The `Player` constructor: `new Player(id, name, x, y, gameBounds)` with the
field initializers of the class (`hp = 100`, `isBystander = true`,
`canDoubleJump = true`, empty queue and debt). -/
def Player.create (id name : String) (x y : ℚ) (gameBounds : Option Bounds) :
    Player :=
  { id := id, name := name,
    phys :=
      { motion :=
          { x := x, y := y, vx := 0, vy := 0, isOnGround := false,
            isOnSurface := false, canDoubleJump := true, isJumping := false },
        hp := 100, isBystander := true, isShooting := false, isDead := false,
        kills := 0, deaths := 0 },
    platforms := [], gameBounds := gameBounds, inputQueue := [],
    lastProcessedInput := none, inputDebt := [] }

/-- `Player.queueInput(input)`: append to the FIFO (the
`lastInputTimestamp` update only feeds the AFK timer, not modelled). -/
def Player.queueInput (p : Player) (i : InputPayload) : Player :=
  { p with inputQueue := p.inputQueue ++ [i] }

/-- `Player.dequeueInput()`: pop the oldest input, if any. -/
def Player.dequeueInput (p : Player) : Option InputPayload × Player :=
  match p.inputQueue with
  | [] => (none, p)
  | i :: rest => (some i, { p with inputQueue := rest })

/-- `Player.setPlatforms`. -/
def Player.setPlatforms (p : Player) (pls : List Platform) : Player :=
  { p with platforms := pls }

/-- `Player.addInputDebt(v)`: push onto the LIFO (top = head here). -/
def Player.addInputDebt (p : Player) (v : InputVector) : Player :=
  { p with inputDebt := v :: p.inputDebt }

/-- `Player.peekInputDebt()`. -/
def Player.peekInputDebt (p : Player) : Option InputVector :=
  p.inputDebt.head?

/-- `Player.popInputDebt()` (the returned vector is never used by callers). -/
def Player.popInputDebt (p : Player) : Player :=
  { p with inputDebt := p.inputDebt.tail }

/-- `Player.clearInputDebt()`. -/
def Player.clearInputDebt (p : Player) : Player :=
  { p with inputDebt := [] }

/-- `Player.isAfk(vector)`: `vector.x == 0 && vector.y == 0 && isOnSurface`. -/
def Player.isAfk (p : Player) (v : InputVector) : Bool :=
  decide (v.x = 0) && decide (v.y = 0) && p.phys.motion.isOnSurface

/-- `Player.damage(amount)`: `hp = max(0, hp - amount)`. -/
def Player.damage (p : Player) (amount : ℚ) : Player :=
  { p with phys.hp := max 0 (p.phys.hp - amount) }

/-- `Player.resetHealth()`: `hp = 100`. -/
def Player.resetHealth (p : Player) : Player :=
  { p with phys.hp := 100 }

/-- `Player.setIsBystander(value)`. -/
def Player.setIsBystander (p : Player) (value : Bool) : Player :=
  { p with phys.isBystander := value }

/-- `Player.resetShooting()`. -/
def Player.resetShooting (p : Player) : Player :=
  { p with phys.isShooting := false }

/-- `Player.update(inputVector, dt, localTick, scenario)`: the motion step,
plus `isShooting = true` when the vector carries a mouse.  `localTick` and the
scenario tag feed logging and the broadcast cache only. -/
def Player.update (p : Player) (v : InputVector) (dt : ℚ) (_localTick : ℕ) :
    Player :=
  { p with phys :=
      { p.phys with
        motion := Motion.update p.phys.motion p.platforms p.gameBounds v dt,
        isShooting := if v.mouse.isSome then true else p.phys.isShooting } }

/-! ## Input-debt protocol (`Match.integratePlayerInputs`, newer `Match`)

The per-player body of `integratePlayerInputs` (one iteration, `max = 1`).
The projectile spawned by `handlePlayerShooting` lives in the match state;
its only effect on the player is `resetShooting()`, modelled here. -/

/-- The predicted vector of the no-payload branch:
`lastProcessedInput?.vector ?? (0,0)` with `y` forced to `0` and `mouse`
cleared (never predict a jump or a shot). -/
def predVec (p : Player) : InputVector :=
  match p.lastProcessedInput with
  | some l => { x := l.vector.x, y := 0, mouse := none }
  | none => { x := 0, y := 0, mouse := none }

/-- Player-side effect of `Match.handlePlayerShooting(player, payload)`:
`player.resetShooting()` runs first; whether a projectile is then pushed
depends on the payload's mouse and the bystander flag (match level). -/
def Player.shootCheck (p : Player) : Player :=
  if p.phys.isShooting then p.resetShooting else p

/-- The no-payload (prediction) branch of `integratePlayerInputs`: push the
predicted vector as input debt unless AFK, run `update` (tag `A`) at
`newTick = lastProcessedInput?.tick ? tick + 1 : 0`, handle a pending shot,
and record the predicted input as last processed. -/
def Player.predictStep (p : Player) (dt : ℚ) : Player :=
  let last := p.lastProcessedInput
  let v := predVec p
  let p1 := if p.isAfk v = false then p.addInputDebt v else p
  let newTick : ℕ :=
    match last with
    | some l => if l.tick = 0 then 0 else l.tick + 1
    | none => 0
  let p2 := p1.update v dt newTick
  let p3 := if p2.phys.isShooting && last.isSome then p2.shootCheck else p2
  { p3 with lastProcessedInput := some { tick := newTick, vector := v } }

/-- The payload branch of `integratePlayerInputs`: peek the debt stack; on an
empty stack apply the input (tag `B`); if the top matches on `x` and `y`, pop
and skip; otherwise clear the debt and apply (tag `C`).  Returns the new
player and the `skipped` flag. -/
def Player.consumePayload (p : Player) (pl : InputPayload) (dt : ℚ) :
    Player × Bool :=
  match p.peekInputDebt with
  | none =>
    let p1 := p.update pl.vector dt pl.tick
    (p1.shootCheck, false)
  | some inputDebtVector =>
    if decide (inputDebtVector.x = pl.vector.x) &&
        decide (inputDebtVector.y = pl.vector.y) then
      (p.popInputDebt.shootCheck, true)
    else
      let p1 := p.clearInputDebt.update pl.vector dt pl.tick
      (p1.shootCheck, false)

/-- One whole per-player iteration of `integratePlayerInputs`: dequeue, run
the prediction or the payload branch, and (when a payload was applied, not
skipped) set `lastProcessedInput` to it. -/
def Player.integrateStep (p : Player) (dt : ℚ) : Player :=
  match p.dequeueInput with
  | (none, p1) => p1.predictStep dt
  | (some pl, p1) =>
    let r := p1.consumePayload pl dt
    if r.2 = false then { r.1 with lastProcessedInput := some pl } else r.1

/-- `k` successive fixed steps of `integratePlayerInputs` for one player. -/
def Player.integrateIter (p : Player) (dt : ℚ) : ℕ → Player
  | 0 => p
  | n + 1 => Player.integrateIter (p.integrateStep dt) dt n

/-- `k` successive motion updates with a fixed input vector: the ground-truth
run in which the vector is applied directly each fixed step. -/
def motionRun (pls : List Platform) (gb : Option Bounds) (v : InputVector)
    (dt : ℚ) : ℕ → Motion → Motion
  | 0, m => m
  | n + 1, m => motionRun pls gb v dt n (Motion.update m pls gb v dt)

/-! ## Simulation loop cadence

Constants of the newer `Match` class and of `MatchMaker`. -/

/-- `Match.TICK_RATE` (newer `Match` class): `60` ticks per second. -/
def TICK_RATE : ℚ := 60

/-- `Match.MIN_MS_BETWEEN_TICKS = 1000 / TICK_RATE`. -/
def MIN_MS_BETWEEN_TICKS : ℚ := 1000 / TICK_RATE

/-- `Match.MIN_S_BETWEEN_TICKS`. -/
def MIN_S_BETWEEN_TICKS : ℚ := MIN_MS_BETWEEN_TICKS / 1000

/-- `BROADCAST_HZ` (`src/services/MatchMaker.ts`): the global driver
broadcasts at 30 Hz. -/
def BROADCAST_HZ : ℚ := 30

/-- `FRAME_MS = 1000 / BROADCAST_HZ` (`src/services/MatchMaker.ts`). -/
def FRAME_MS : ℚ := 1000 / BROADCAST_HZ

/-- The accumulator `while` loop of `Match.update`
(`while (accumulator >= MIN_MS_BETWEEN_TICKS) { ...; accumulator -= ...;
serverTick++ }`), with explicit fuel (the loop terminates because the step is
positive; any fuel `≥ ⌈accumulator / step⌉` reaches the fixed point). -/
def matchUpdateLoop : ℕ → ℚ → ℕ → ℚ × ℕ
  | 0, acc, tick => (acc, tick)
  | fuel + 1, acc, tick =>
    if MIN_MS_BETWEEN_TICKS ≤ acc then
      matchUpdateLoop fuel (acc - MIN_MS_BETWEEN_TICKS) (tick + 1)
    else (acc, tick)

/-- `Match.update()` accumulator handling: cap the frame at 100 ms, add it to
the accumulator and run the fixed-step loop. -/
def matchUpdate (fuel : ℕ) (accumulator : ℚ) (serverTick : ℕ)
    (frameTime : ℚ) : ℚ × ℕ :=
  matchUpdateLoop fuel (accumulator + min frameTime 100) serverTick

/-! ## Projectiles -/

/-- `Projectile.speed` of the static helper class (`30`); also the default
`speed` argument of the `Projectile` entity constructor. -/
def projectileSpeed : ℚ := 30

/-- The static `Projectile.calculateVelocity(spawnX, spawnY, targetX,
targetY)`: normalise the spawn→target vector and scale by the speed.  There
is no branch on the magnitude; the quotients are formed unconditionally. -/
def calculateVelocity (spawnX spawnY targetX targetY : ℚ) : ℚ × ℚ :=
  let dx := targetX - spawnX
  let dy := targetY - spawnY
  let mag := Rat.sqrt (dx * dx + dy * dy)
  let dirX := dx / mag
  let dirY := dy / mag
  (dirX * projectileSpeed, dirY * projectileSpeed)

/-- The `Projectile` entity (`src/game/entities/Projectile.ts`), as pushed by
`handlePlayerShooting`; lifetime expiry (`age`) is timer-driven and not
modelled. -/
structure Projectile where
  id : String
  ownerId : String
  x : ℚ
  y : ℚ
  vx : ℚ
  vy : ℚ
  shouldBeDestroyed : Bool := false
deriving DecidableEq, Repr

/-! ## Match state (newer `Match` class of `src/services/Match.ts`)

JavaScript `Map`s are modelled as insertion-ordered association lists with
unique keys; `set` overwrites in place or appends, `delete` removes. -/

/-- `Map.prototype.get`. -/
def mapLookup {α : Type} (l : List (String × α)) (k : String) : Option α :=
  match l with
  | [] => none
  | (k', v) :: rest => if k' = k then some v else mapLookup rest k

/-- `Map.prototype.set`: replace in place if the key exists, else append. -/
def mapSet {α : Type} (l : List (String × α)) (k : String) (v : α) :
    List (String × α) :=
  match l with
  | [] => [(k, v)]
  | (k', v') :: rest =>
    if k' = k then (k', v) :: rest else (k', v') :: mapSet rest k v

/-- `Map.prototype.delete`. -/
def mapErase {α : Type} (l : List (String × α)) (k : String) :
    List (String × α) :=
  match l with
  | [] => []
  | (k', v') :: rest =>
    if k' = k then rest else (k', v') :: mapErase rest k

/-- `PlayerScore` (`src/services/Match.ts`). -/
structure PlayerScore where
  kills : ℕ
  deaths : ℕ
  name : String
deriving DecidableEq, Repr

/-- An entry of the `sortedScores` array built by `checkWinCondition`:
`{playerId, ...score}`. -/
structure ScoreEntry where
  playerId : String
  kills : ℕ
  deaths : ℕ
  name : String
deriving DecidableEq, Repr

/-- `MAX_KILL_AMOUNT` of the newer `Match` class. -/
def MAX_KILL_AMOUNT : ℕ := 3

/-- Observable emissions and scheduling effects of a match. -/
inductive GameEvent
  | gameOver (scores : List ScoreEntry)
  | matchReset
  | scheduleReset (delayMs : ℕ)
deriving DecidableEq, Repr

/-- The per-match mutable state used by the claims: the world players map,
the score map, live projectiles, the respawn queue (`playerMatchId → name`),
the active flag, whether `matchResetTimeout` is armed, the removal mark, and
the trace of observable events.  Sockets, timers and broadcast caches are
not modelled. -/
structure MatchState where
  players : List (String × Player)
  playerScores : List (String × PlayerScore)
  projectiles : List Projectile
  respawnQueue : List (String × String)
  matchIsActive : Bool
  matchResetTimeoutSet : Bool
  shouldRemove : Bool
  events : List GameEvent
deriving DecidableEq, Repr

/-- Match constants: `STARTING_X`, `STARTING_Y`, `GAME_BOUNDS` and the four
platforms of `initializePlatforms` (newer `Match`):
`(115, H-250)`, `(W-610, H-250)`, `(115, H-500)`, `(W-610, H-500)` with
`W = 1920`, `H = 1080`. -/
def STARTING_X : ℚ := 100
def STARTING_Y : ℚ := 100
def GAME_BOUNDS : Bounds := { left := 0, right := 1920, top := 0, bottom := 1080 }
def matchPlatforms : List Platform :=
  [ { x := 115, y := 1080 - 250 }, { x := 1920 - 610, y := 1080 - 250 },
    { x := 115, y := 1080 - 500 }, { x := 1920 - 610, y := 1080 - 500 } ]

/-- A player entity as the match creates it: `new Player(id, name, STARTING_X,
STARTING_Y, GAME_BOUNDS)` followed by `setPlatforms`. -/
def Match.newPlayer (id name : String) : Player :=
  (Player.create id name STARTING_X STARTING_Y (some GAME_BOUNDS)).setPlatforms
    matchPlatforms

/-- `Match.addPlayer(socket, playerId, name)`: insert a fresh (bystander)
player and a zero score (socket bookkeeping and the welcome emission are not
modelled). -/
def Match.addPlayer (st : MatchState) (playerId name : String) : MatchState :=
  { st with
    players := mapSet st.players playerId (Match.newPlayer playerId name),
    playerScores := mapSet st.playerScores playerId
      { kills := 0, deaths := 0, name := name } }

/-- The state the `Match` constructor produces: platforms initialised, the
first player added, `matchIsActive = true`. -/
def initialMatch (firstPlayerId firstPlayerName : String) : MatchState :=
  let st : MatchState :=
    { players := [], playerScores := [], projectiles := [],
      respawnQueue := [], matchIsActive := false,
      matchResetTimeoutSet := false, shouldRemove := false, events := [] }
  { Match.addPlayer st firstPlayerId firstPlayerName with matchIsActive := true }

/-- `Match.handleToggleBystander(playerId)`: if the player exists, always
`setIsBystander(false)`. -/
def Match.handleToggleBystander (st : MatchState) (playerId : String) :
    MatchState :=
  match mapLookup st.players playerId with
  | none => st
  | some player =>
    { st with players :=
        mapSet st.players playerId (player.setIsBystander false) }

/-- `Match.handlePlayerInputPayload(playerId, playerInput)`: if the player
exists, queue the input unconditionally (the only other effect is disarming
the AFK timer).  There is no counter and no window in this handler. -/
def Match.handlePlayerInputPayload (st : MatchState) (playerId : String)
    (playerInput : InputPayload) : MatchState :=
  match mapLookup st.players playerId with
  | none => st
  | some player =>
    { st with players :=
        mapSet st.players playerId (player.queueInput playerInput) }

/-- Stable descending insertion by kill count: an element is placed before
every element with at most as many kills, after every element with strictly
more.  This is the unique stable descending order, i.e. the result of the
JavaScript stable `sort((a, b) => b.kills - a.kills)`. -/
def insertScoreDesc (e : ScoreEntry) : List ScoreEntry → List ScoreEntry
  | [] => [e]
  | x :: xs =>
    if x.kills ≤ e.kills then e :: x :: xs else x :: insertScoreDesc e xs

/-- Stable sort of score entries, descending by kills. -/
def sortScoresDesc : List ScoreEntry → List ScoreEntry
  | [] => []
  | x :: xs => insertScoreDesc x (sortScoresDesc xs)

/-- The `sortedScores` array of `checkWinCondition`:
`Array.from(playerScores).map(...).sort((a, b) => b.kills - a.kills)`. -/
def Match.sortedScores (scores : List (String × PlayerScore)) :
    List ScoreEntry :=
  sortScoresDesc (scores.map fun e =>
    { playerId := e.1, kills := e.2.kills, deaths := e.2.deaths,
      name := e.2.name })

/-- `Match.scheulePlayerRespawn(playerId, playerName)`: enter the respawn
queue (the armed 3 s timer fires as `respawnTimerFire` below). -/
def Match.scheulePlayerRespawn (st : MatchState) (playerId playerName : String) :
    MatchState :=
  { st with respawnQueue := mapSet st.respawnQueue playerId playerName }

/-- The 3-second timer callback of `scheulePlayerRespawn`: if the player is
still queued, replace the entry by a fresh non-bystander player at the
starting position (`playerName` is the name captured when the timer was
armed, which in every schedule is the queued name). -/
def Match.respawnTimerFire (st : MatchState) (playerId playerName : String) :
    MatchState :=
  if (mapLookup st.respawnQueue playerId).isSome = false then st
  else
    { st with
      respawnQueue := mapErase st.respawnQueue playerId,
      players := mapSet st.players playerId
        ((Match.newPlayer playerId playerName).setIsBystander false) }

/-- `Match.checkWinCondition()`: no-op unless the match is active with no
pending reset; then, when the head of the descending score order has at
least `MAX_KILL_AMOUNT` kills: revive every queued player in place as a
non-bystander, emit `gameOver` with the sorted scores, leave the active
state and arm the 10 s match-reset timer. -/
def Match.checkWinCondition (st : MatchState) : MatchState :=
  if !st.matchIsActive || st.matchResetTimeoutSet then st
  else
    let sorted := Match.sortedScores st.playerScores
    match sorted.head? with
    | none => st
    | some winner =>
      if MAX_KILL_AMOUNT ≤ winner.kills then
        let revived := st.respawnQueue.foldl
          (fun ps e =>
            mapSet ps e.1 ((Match.newPlayer e.1 e.2).setIsBystander false))
          st.players
        { st with
          matchIsActive := false,
          players := revived,
          respawnQueue := [],
          events := st.events ++
            [GameEvent.gameOver sorted, GameEvent.scheduleReset 10000],
          matchResetTimeoutSet := true }
      else st

/-- `Match.handlePlayerDeath(victimId, victimName, killerId)`: remove the
victim from the world, bump the victim's deaths and the killer's kills in the
score map (each only if the score entry exists), run the win check after the
kill update, and queue the victim for respawn. -/
def Match.handlePlayerDeath (st : MatchState)
    (victimId victimName killerId : String) : MatchState :=
  let st1 : MatchState := { st with players := mapErase st.players victimId }
  let st2 :=
    match mapLookup st1.playerScores victimId with
    | some sc =>
      { st1 with playerScores :=
          (mapSet st1.playerScores victimId { sc with deaths := sc.deaths + 1 }) }
    | none => st1
  let st3 :=
    match mapLookup st2.playerScores killerId with
    | some sc =>
      Match.checkWinCondition
        { st2 with playerScores :=
            (mapSet st2.playerScores killerId { sc with kills := sc.kills + 1 }) }
    | none => st2
  Match.scheulePlayerRespawn st3 victimId victimName

/-- `Match.handleCollision(shooterId, target)` with the death branch made
observable: bystanders take no damage; otherwise apply 10 damage and, if the
resulting hp is `≤ 0`, run death handling.  The boolean records whether
death handling ran. -/
def Match.handleCollisionF (st : MatchState) (shooterId : String)
    (target : Player) : MatchState × Bool :=
  if target.phys.isBystander then (st, false)
  else
    let target' := target.damage 10
    let st1 : MatchState :=
      { st with players := mapSet st.players target.id target' }
    if target'.phys.hp ≤ 0 then
      (Match.handlePlayerDeath st1 target.id target.name shooterId, true)
    else (st1, false)

/-- `Match.handleProjectileHit(playerId, enemyId)`: validate that the
reporting player and the target both exist, then delegate to
`handleCollision`. -/
def Match.handleProjectileHitF (st : MatchState) (playerId enemyId : String) :
    MatchState × Bool :=
  match mapLookup st.players playerId with
  | none => (st, false)
  | some _ =>
    match mapLookup st.players enemyId with
    | none => (st, false)
    | some enemy => Match.handleCollisionF st playerId enemy

/-- `Match.removePlayerFromGameState(playerId, socketId)` (the grace-period
timer callback): drop the player from the respawn queue, the world and the
score map; if the world became empty, mark the match for removal. -/
def Match.removePlayerFromGameState (st : MatchState) (playerId : String) :
    MatchState :=
  let st1 : MatchState :=
    { st with
      respawnQueue := mapErase st.respawnQueue playerId,
      players := mapErase st.players playerId,
      playerScores := mapErase st.playerScores playerId }
  if st1.players.isEmpty then { st1 with shouldRemove := true } else st1

/-- `Match.resetMatch()`: clear the reset timer and all projectiles, reset
each surviving player's health in place and overwrite their score with
`(0, 0)` (positions and bystander flags untouched), emit `matchReset`, and
return to the active state. -/
def Match.resetMatch (st : MatchState) : MatchState :=
  let st1 : MatchState :=
    { st with matchResetTimeoutSet := false, projectiles := [] }
  let st2 : MatchState :=
    { st1 with
      players := st1.players.map (fun e => (e.1, e.2.resetHealth)),
      playerScores := st1.players.foldl
        (fun sc e => mapSet sc e.1 { kills := 0, deaths := 0, name := e.2.name })
        st1.playerScores }
  { st2 with events := st2.events ++ [GameEvent.matchReset],
             matchIsActive := true }

/-- The operations that drive a match from outside the fixed-step loop:
session events and timer callbacks. -/
inductive MatchOp
  | addPlayer (playerId name : String)
  | toggleBystander (playerId : String)
  | playerInput (playerId : String) (payload : InputPayload)
  | projectileHit (playerId enemyId : String)
  | respawnTimerFire (playerId name : String)
  | graceExpire (playerId : String)
  | resetTimerFire
deriving DecidableEq, Repr

/-- Dispatch one operation to its handler. -/
def Match.applyOp (st : MatchState) : MatchOp → MatchState
  | .addPlayer id name => Match.addPlayer st id name
  | .toggleBystander id => Match.handleToggleBystander st id
  | .playerInput id pl => Match.handlePlayerInputPayload st id pl
  | .projectileHit a b => (Match.handleProjectileHitF st a b).1
  | .respawnTimerFire id name => Match.respawnTimerFire st id name
  | .graceExpire id => Match.removePlayerFromGameState st id
  | .resetTimerFire => Match.resetMatch st

/-- Run a sequence of operations. -/
def Match.runOps (st : MatchState) (ops : List MatchOp) : MatchState :=
  ops.foldl Match.applyOp st

/-! ## Association-list lemmas (JavaScript `Map` semantics) -/

theorem mapLookup_mapSet_self {α : Type} (l : List (String × α)) (k : String)
    (v : α) : mapLookup (mapSet l k v) k = some v := by
  induction l with
  | nil => simp [mapSet, mapLookup]
  | cons hd tl ih =>
    by_cases h : hd.1 = k
    · simp [mapSet, mapLookup, h]
    · simp [mapSet, mapLookup, h, ih]

theorem mapLookup_mapSet_ne {α : Type} (l : List (String × α)) (k j : String)
    (v : α) (h : k ≠ j) : mapLookup (mapSet l k v) j = mapLookup l j := by
  induction l with
  | nil => simp [mapSet, mapLookup, h]
  | cons hd tl ih =>
    by_cases hk : hd.1 = k
    · simp [mapSet, mapLookup, hk, h]
    · by_cases hj : hd.1 = j <;>
        simp [mapSet, mapLookup, hk, hj, ih, Ne.symm h]

theorem mapLookup_mapErase_ne {α : Type} (l : List (String × α)) (k j : String)
    (h : k ≠ j) : mapLookup (mapErase l k) j = mapLookup l j := by
  induction l with
  | nil => simp [mapErase]
  | cons hd tl ih =>
    by_cases hk : hd.1 = k
    · have hdj : hd.1 ≠ j := fun hh => h (hk.symm.trans hh)
      simp [mapErase, mapLookup, hk, hdj, h]
    · by_cases hj : hd.1 = j <;>
        simp [mapErase, mapLookup, hk, hj, ih, Ne.symm h]

theorem mapLookup_none_iff {α : Type} (l : List (String × α)) (k : String) :
    mapLookup l k = none ↔ ∀ e ∈ l, e.1 ≠ k := by
  induction l with
  | nil => simp [mapLookup]
  | cons hd tl ih =>
    by_cases h : hd.1 = k <;> simp [mapLookup, h, ih]

theorem mapLookup_mapErase_self {α : Type} (l : List (String × α)) (k : String)
    (hnd : (l.map Prod.fst).Nodup) : mapLookup (mapErase l k) k = none := by
  induction l with
  | nil => simp [mapErase, mapLookup]
  | cons hd tl ih =>
    simp only [List.map_cons, List.nodup_cons] at hnd
    by_cases h : hd.1 = k
    · rw [mapErase, if_pos h, mapLookup_none_iff]
      intro e he hek
      exact hnd.1 (by rw [h, ← hek]; exact List.mem_map_of_mem Prod.fst he)
    · simp [mapErase, mapLookup, h, ih hnd.2]

theorem mapLookup_map_value {α β : Type} (f : α → β) (l : List (String × α))
    (k : String) :
    mapLookup (l.map fun e => (e.1, f e.2)) k = (mapLookup l k).map f := by
  induction l with
  | nil => simp [mapLookup]
  | cons hd tl ih =>
    by_cases h : hd.1 = k <;> simp [mapLookup, h, ih]

/-! ## C3 — fixed-step length and tick rate -/

/-- C3 (counterexample): the claim states a 30 Hz simulation tick rate with
`FIXED_STEP_MS ≈ 33.33 ms`; the newer `Match` class fixes `TICK_RATE = 60`,
so the fixed step is `1000 / 60`, not `1000 / 30`. -/
theorem tick_rate_not_thirty :
    TICK_RATE ≠ 30 ∧ MIN_MS_BETWEEN_TICKS ≠ 1000 / 30 ∧
      MIN_MS_BETWEEN_TICKS = 1000 / 60 := by
  refine ⟨?_, ?_, ?_⟩ <;> with_unfolding_all decide

/-- C3 (amended): `FIXED_STEP_MS = 1000 / TICK_RATE` holds, but with
`TICK_RATE = 60`: each iteration of the accumulator loop consumes exactly
`1000 / 60 ≈ 16.67` ms and increments `serverTick` once (consumed
accumulator time = ticks gained × step); the broadcast driver runs at
`BROADCAST_HZ = 30`, so simulation and broadcast rates differ. -/
theorem fixed_step_is_sixty_hz :
    TICK_RATE = 60 ∧ MIN_MS_BETWEEN_TICKS = 1000 / TICK_RATE ∧
    BROADCAST_HZ = 30 ∧ FRAME_MS = 1000 / BROADCAST_HZ ∧
    ∀ (fuel : ℕ) (acc : ℚ) (tick : ℕ),
      tick ≤ (matchUpdateLoop fuel acc tick).2 ∧
      acc - (matchUpdateLoop fuel acc tick).1 =
        (((matchUpdateLoop fuel acc tick).2 - tick : ℕ) : ℚ) *
          MIN_MS_BETWEEN_TICKS := by
  refine ⟨rfl, rfl, rfl, rfl, ?_⟩
  intro fuel
  induction fuel with
  | zero => intro acc tick; simp [matchUpdateLoop]
  | succ n ih =>
    intro acc tick
    rw [matchUpdateLoop]
    by_cases h : MIN_MS_BETWEEN_TICKS ≤ acc
    · rw [if_pos h]
      obtain ⟨h1, h2⟩ := ih (acc - MIN_MS_BETWEEN_TICKS) (tick + 1)
      refine ⟨by omega, ?_⟩
      have hsub : ((matchUpdateLoop n (acc - MIN_MS_BETWEEN_TICKS) (tick + 1)).2
          - tick : ℕ) =
          ((matchUpdateLoop n (acc - MIN_MS_BETWEEN_TICKS) (tick + 1)).2
            - (tick + 1) : ℕ) + 1 := by omega
      rw [hsub]
      push_cast
      linarith
    · rw [if_neg h]; simp

/-! ## C6 — projectile launch velocity -/

/-- C6 (counterexample): the claim promises `(0, 0)` whenever the
spawn-to-target distance is below `1e-8`.  At spawn `(0, 0)` and target
`(2⁻³⁰, 0)` the distance `2⁻³⁰ ≈ 9.3e-10` is below `1e-8` (all values exact
dyadic floats), yet `calculateVelocity` returns `(30, 0)`: the code has no
near-zero guard and normalises unconditionally. -/
theorem launch_velocity_no_near_zero_guard :
    Rat.sqrt ((1 / 2 ^ 30 - 0) * (1 / 2 ^ 30 - 0) + (0 - 0) * (0 - 0)) <
        1 / 10 ^ 8 ∧
      calculateVelocity 0 0 (1 / 2 ^ 30) 0 = (30, 0) ∧
      ((30 : ℚ), (0 : ℚ)) ≠ (0, 0) := by
  refine ⟨?_, ?_, ?_⟩
  · norm_num [Rat.sqrt]
  · norm_num [calculateVelocity, Rat.sqrt, projectileSpeed]
  · norm_num [Prod.ext_iff]

/-- C6 (amended): whenever the magnitude computation is exact and nonzero
(`Math.sqrt` returns a true square root of `dx² + dy²`), the result is the
unit spawn→target direction scaled by the speed 30: its squared norm is
`30²`, it is collinear with `(dx, dy)`, and it points towards the target.
There is no special case below `1e-8`; a zero distance divides by zero. -/
theorem launch_velocity_unit_direction (sx sy tx ty : ℚ)
    (hmag : Rat.sqrt ((tx - sx) * (tx - sx) + (ty - sy) * (ty - sy)) *
        Rat.sqrt ((tx - sx) * (tx - sx) + (ty - sy) * (ty - sy)) =
        (tx - sx) * (tx - sx) + (ty - sy) * (ty - sy))
    (hne : Rat.sqrt ((tx - sx) * (tx - sx) + (ty - sy) * (ty - sy)) ≠ 0) :
    (calculateVelocity sx sy tx ty).1 * (calculateVelocity sx sy tx ty).1 +
        (calculateVelocity sx sy tx ty).2 * (calculateVelocity sx sy tx ty).2 =
        projectileSpeed * projectileSpeed ∧
      (calculateVelocity sx sy tx ty).1 * (ty - sy) =
        (calculateVelocity sx sy tx ty).2 * (tx - sx) ∧
      0 < (calculateVelocity sx sy tx ty).1 * (tx - sx) +
        (calculateVelocity sx sy tx ty).2 * (ty - sy) := by
  have hpos : 0 < Rat.sqrt ((tx - sx) * (tx - sx) + (ty - sy) * (ty - sy)) :=
    lt_of_le_of_ne (Rat.sqrt_nonneg _) (Ne.symm hne)
  simp only [calculateVelocity, projectileSpeed]
  refine ⟨?_, ?_, ?_⟩
  · field_simp
    nlinarith [hmag]
  · field_simp
    ring
  · have expand : (tx - sx) / Rat.sqrt ((tx-sx)*(tx-sx) + (ty-sy)*(ty-sy)) * 30
        * (tx - sx) +
        (ty - sy) / Rat.sqrt ((tx-sx)*(tx-sx) + (ty-sy)*(ty-sy)) * 30 * (ty - sy)
        = 30 * Rat.sqrt ((tx-sx)*(tx-sx) + (ty-sy)*(ty-sy)) := by
      field_simp
      nlinarith [hmag]
    rw [expand]
    positivity

/-- C6 (witness): spawn `(0, 0)`, target `(3, 4)`: the sqrt is exact
(`√25 = 5`) and the velocity `(18, 24)` has norm 30 towards the target. -/
theorem launch_velocity_unit_direction_witness :
    (calculateVelocity 0 0 3 4).1 * (calculateVelocity 0 0 3 4).1 +
        (calculateVelocity 0 0 3 4).2 * (calculateVelocity 0 0 3 4).2 =
        projectileSpeed * projectileSpeed ∧
      (calculateVelocity 0 0 3 4).1 * ((4 : ℚ) - 0) =
        (calculateVelocity 0 0 3 4).2 * ((3 : ℚ) - 0) ∧
      0 < (calculateVelocity 0 0 3 4).1 * ((3 : ℚ) - 0) +
        (calculateVelocity 0 0 3 4).2 * ((4 : ℚ) - 0) :=
  launch_velocity_unit_direction 0 0 3 4 (by norm_num [Rat.sqrt])
    (by norm_num [Rat.sqrt])

/-! ## C7 — input rate limiting -/

/-- Folding a burst of `playerInput` deliveries appends every payload to the
player's queue: `handlePlayerInputPayload` keeps no counter and no window. -/
theorem handleInput_foldl_queue (st : MatchState) (id : String) (p : Player)
    (h : mapLookup st.players id = some p) (pls : List InputPayload) :
    mapLookup
        (pls.foldl (fun s pl => Match.handlePlayerInputPayload s id pl)
          st).players id =
      some { p with inputQueue := p.inputQueue ++ pls } := by
  induction pls generalizing st p with
  | nil => simpa using h
  | cons hd tl ih =>
    have step :
        mapLookup (Match.handlePlayerInputPayload st id hd).players id =
          some (p.queueInput hd) := by
      simp [Match.handlePlayerInputPayload, h, mapLookup_mapSet_self]
    have hres := ih _ _ step
    simpa [Player.queueInput] using hres

/-- The first player of a fresh match is present under its id. -/
theorem initialMatch_lookup (id name : String) :
    mapLookup (initialMatch id name).players id =
      some (Match.newPlayer id name) := by
  simp [initialMatch, Match.addPlayer, mapSet, mapLookup]

/-- 101 `playerInput` payloads, all inside any single 1000 ms window (the
handler reads no clock at all). -/
def floodInputs : List InputPayload :=
  (List.range 101).map fun i =>
    { tick := i, vector := { x := 0, y := 0, mouse := none } }

/-- C7 (counterexample): after 101 `playerInput` messages in one window the
player's queue holds all 101 inputs — none was dropped, contradicting the
claimed accept-first-100-then-drop behaviour. -/
theorem input_rate_limit_missing :
    ((mapLookup
          (floodInputs.foldl
            (fun s pl => Match.handlePlayerInputPayload s "p1" pl)
            (initialMatch "p1" "Alice")).players "p1").map
        (fun p => p.inputQueue.length)).getD 0 = 101 ∧
      ¬((101 : ℕ) ≤ 100) := by
  have h := handleInput_foldl_queue (initialMatch "p1" "Alice") "p1"
    (Match.newPlayer "p1" "Alice") (initialMatch_lookup "p1" "Alice")
    floodInputs
  rw [h]
  refine ⟨?_, by decide⟩
  simp [Match.newPlayer, Player.create, Player.setPlatforms, floodInputs]

/-- C7 (amended): the match-side input path has no rate limiting: every
`playerInput` from a player present in the world is appended to that
player's queue, in arrival order, no matter how many arrive in a window. -/
theorem inputs_always_queued (st : MatchState) (id : String) (p : Player)
    (h : mapLookup st.players id = some p) (pls : List InputPayload) :
    mapLookup
        (pls.foldl (fun s pl => Match.handlePlayerInputPayload s id pl)
          st).players id =
      some { p with inputQueue := p.inputQueue ++ pls } :=
  handleInput_foldl_queue st id p h pls

/-- C7 (witness): one player, two queued inputs, both accepted. -/
theorem inputs_always_queued_witness :
    mapLookup
        (([⟨0, ⟨0, 0, none⟩⟩, ⟨1, ⟨1, 0, none⟩⟩] : List InputPayload).foldl
          (fun s pl => Match.handlePlayerInputPayload s "p1" pl)
          (initialMatch "p1" "Alice")).players "p1" =
      some { Match.newPlayer "p1" "Alice" with
             inputQueue := (Match.newPlayer "p1" "Alice").inputQueue ++
               [⟨0, ⟨0, 0, none⟩⟩, ⟨1, ⟨1, 0, none⟩⟩] } :=
  inputs_always_queued (initialMatch "p1" "Alice") "p1"
    (Match.newPlayer "p1" "Alice") (initialMatch_lookup "p1" "Alice") _

/-! ## C5 — win condition -/

theorem mem_insertScoreDesc {b e : ScoreEntry} {l : List ScoreEntry} :
    b ∈ insertScoreDesc e l ↔ b = e ∨ b ∈ l := by
  induction l with
  | nil => simp [insertScoreDesc]
  | cons x xs ih =>
    rw [insertScoreDesc]
    by_cases hc : x.kills ≤ e.kills
    · rw [if_pos hc]; simp
    · rw [if_neg hc]
      simp only [List.mem_cons, ih]
      tauto

theorem insertScoreDesc_sorted (e : ScoreEntry) (l : List ScoreEntry)
    (h : List.Pairwise (fun a b => b.kills ≤ a.kills) l) :
    List.Pairwise (fun a b => b.kills ≤ a.kills) (insertScoreDesc e l) := by
  induction l with
  | nil => simp [insertScoreDesc]
  | cons x xs ih =>
    rw [insertScoreDesc]
    rcases List.pairwise_cons.mp h with ⟨hx, hxs⟩
    by_cases hc : x.kills ≤ e.kills
    · rw [if_pos hc]
      refine List.pairwise_cons.mpr ⟨?_, h⟩
      intro b hb
      rcases List.mem_cons.mp hb with rfl | hb
      · exact hc
      · exact le_trans (hx b hb) hc
    · rw [if_neg hc]
      refine List.pairwise_cons.mpr ⟨?_, ih hxs⟩
      intro b hb
      rcases mem_insertScoreDesc.mp hb with rfl | hb
      · exact le_of_not_le hc
      · exact hx b hb

theorem sortScoresDesc_sorted (l : List ScoreEntry) :
    List.Pairwise (fun a b => b.kills ≤ a.kills) (sortScoresDesc l) := by
  induction l with
  | nil => simp [sortScoresDesc]
  | cons x xs ih => exact insertScoreDesc_sorted x (sortScoresDesc xs) ih

/-- A match whose leading player has exactly 3 kills. -/
def threeKillState : MatchState :=
  { players := [("a", Match.newPlayer "a" "Ann")],
    playerScores := [("a", { kills := 3, deaths := 0, name := "Ann" })],
    projectiles := [], respawnQueue := [], matchIsActive := true,
    matchResetTimeoutSet := false, shouldRemove := false, events := [] }

/-- C5 (counterexample): with a top kill count of 3 — below the claimed
threshold of 4 — the win check already emits `gameOver` (sorted scores),
leaves the active state and schedules the reset: `MAX_KILL_AMOUNT` is 3 in
the code, not 4. -/
theorem game_over_emitted_below_four_kills :
    (∀ e ∈ Match.sortedScores threeKillState.playerScores, e.kills < 4) ∧
      (Match.checkWinCondition threeKillState).events =
        [GameEvent.gameOver
            [{ playerId := "a", kills := 3, deaths := 0, name := "Ann" }],
          GameEvent.scheduleReset 10000] ∧
      (Match.checkWinCondition threeKillState).matchIsActive = false := by
  refine ⟨?_, ?_, ?_⟩
  · with_unfolding_all decide
  · simp [Match.checkWinCondition, threeKillState, Match.sortedScores,
      sortScoresDesc, insertScoreDesc, MAX_KILL_AMOUNT]
  · with_unfolding_all decide

/-- C5 (amended): after each kill (`handlePlayerDeath` runs
`checkWinCondition` right after incrementing the killer's score), provided
the match is active with no reset pending, the match emits `gameOver` with
the scores sorted descending by kills, leaves the active state and schedules
`resetMatch` after 10 s *exactly when* the top kill count is at least
`MAX_KILL_AMOUNT = 3` (not 4). -/
theorem win_check_gate (st : MatchState) (hA : st.matchIsActive = true)
    (hT : st.matchResetTimeoutSet = false) :
    (((Match.checkWinCondition st).events =
        st.events ++ [GameEvent.gameOver (Match.sortedScores st.playerScores),
          GameEvent.scheduleReset 10000] ∧
      (Match.checkWinCondition st).matchIsActive = false ∧
      (Match.checkWinCondition st).matchResetTimeoutSet = true) ↔
      (∃ w, (Match.sortedScores st.playerScores).head? = some w ∧
        MAX_KILL_AMOUNT ≤ w.kills)) ∧
    List.Pairwise (fun a b => b.kills ≤ a.kills)
      (Match.sortedScores st.playerScores) ∧
    MAX_KILL_AMOUNT = 3 := by
  refine ⟨?_, sortScoresDesc_sorted _, rfl⟩
  rw [Match.checkWinCondition]
  simp only [hA, hT, Bool.not_true, Bool.false_or, Bool.false_eq_true,
    if_false]
  cases hh : (Match.sortedScores st.playerScores).head? with
  | none =>
    simp only [hh]
    constructor
    · rintro ⟨h1, -, -⟩
      have := congrArg List.length h1
      simp at this
    · rintro ⟨w, hw, -⟩
      cases hw
  | some w =>
    simp only [hh]
    by_cases hk : MAX_KILL_AMOUNT ≤ w.kills
    · rw [if_pos hk]
      constructor
      · intro _; exact ⟨w, rfl, hk⟩
      · intro _; exact ⟨rfl, rfl, rfl⟩
    · rw [if_neg hk]
      constructor
      · rintro ⟨-, h2, -⟩
        rw [hA] at h2
        cases h2
      · rintro ⟨w', hw', hk'⟩
        cases hw'
        exact absurd hk' hk

/-- C5 (witness): the theorem applied to the three-kill state: the gate fires
there (both sides of the equivalence hold). -/
theorem win_check_gate_witness :
    (((Match.checkWinCondition threeKillState).events =
        threeKillState.events ++
          [GameEvent.gameOver (Match.sortedScores threeKillState.playerScores),
            GameEvent.scheduleReset 10000] ∧
      (Match.checkWinCondition threeKillState).matchIsActive = false ∧
      (Match.checkWinCondition threeKillState).matchResetTimeoutSet = true) ↔
      (∃ w, (Match.sortedScores threeKillState.playerScores).head? = some w ∧
        MAX_KILL_AMOUNT ≤ w.kills)) ∧
    List.Pairwise (fun a b => b.kills ≤ a.kills)
      (Match.sortedScores threeKillState.playerScores) ∧
    MAX_KILL_AMOUNT = 3 :=
  win_check_gate threeKillState rfl rfl

/-! ## C4 — `shouldRemove` versus empty player map -/

/-- A reachable operation sequence: the sole player of a fresh match leaves
bystander mode, then reports ten `projectileHit`s naming itself as the
target (shooter and target both exist and the target is no bystander, so
every hit passes validation and applies 10 damage). -/
def selfKillTrace : List MatchOp :=
  MatchOp.toggleBystander "p1" ::
    List.replicate 10 (MatchOp.projectileHit "p1" "p1")

/-- C4 (counterexample): after the tenth self-hit, `handlePlayerDeath`
deletes the victim and the player map becomes empty, but `shouldRemove` is
still `false` — only the grace-period removal path ever sets it.  So
`shouldRemove ⇔ players = ∅` fails in a reachable state. -/
theorem empty_players_without_removal_mark :
    (Match.runOps (initialMatch "p1" "Alice") selfKillTrace).players = [] ∧
      (Match.runOps (initialMatch "p1" "Alice") selfKillTrace).shouldRemove =
        false := by
  refine ⟨?_, ?_⟩ <;> with_unfolding_all decide

/-- `checkWinCondition` never touches `shouldRemove`. -/
theorem checkWin_shouldRemove (s : MatchState) :
    (Match.checkWinCondition s).shouldRemove = s.shouldRemove := by
  simp only [Match.checkWinCondition]
  split
  · rfl
  · split
    · rfl
    · split <;> rfl

/-- `handlePlayerDeath` never touches `shouldRemove`. -/
theorem death_shouldRemove (s : MatchState) (v n k : String) :
    (Match.handlePlayerDeath s v n k).shouldRemove = s.shouldRemove := by
  simp only [Match.handlePlayerDeath, Match.scheulePlayerRespawn]
  split <;> split <;> simp [checkWin_shouldRemove]

/-- `handleCollision` never touches `shouldRemove`. -/
theorem collision_shouldRemove (st : MatchState) (a : String) (t : Player) :
    (Match.handleCollisionF st a t).1.shouldRemove = st.shouldRemove := by
  simp only [Match.handleCollisionF]
  split
  · rfl
  · split
    · simp [death_shouldRemove]
    · simp

/-- C4 (amended): `shouldRemove` is governed by the grace-period removal path
alone: `removePlayerFromGameState` leaves it true exactly when it was
already true or the removal emptied the player map, while the
`projectileHit` death path never touches it (hence death handling can empty
`players` with `shouldRemove` still false, as the counterexample shows). -/
theorem should_remove_only_from_grace_removal :
    (∀ (st : MatchState) (id : String),
      (Match.removePlayerFromGameState st id).shouldRemove =
        (st.shouldRemove ||
          (Match.removePlayerFromGameState st id).players.isEmpty)) ∧
    (∀ (st : MatchState) (a b : String),
      (Match.handleProjectileHitF st a b).1.shouldRemove = st.shouldRemove) := by
  constructor
  · intro st id
    rw [Match.removePlayerFromGameState]
    by_cases h : (mapErase st.players id).isEmpty
    · simp [h]
    · simp [h]
  · intro st a b
    simp only [Match.handleProjectileHitF]
    split
    · rfl
    · split
      · rfl
      · exact collision_shouldRemove st a _

/-! ## C1 — the skip condition of the input-debt protocol -/

/-- `Player.shootCheck` never moves the player. -/
theorem shootCheck_motion (p : Player) :
    p.shootCheck.phys.motion = p.phys.motion := by
  rw [Player.shootCheck]
  split <;> rfl

/-- A living player whose debt stack top is `(1, 0)`. -/
def mouseSkipPlayer : Player :=
  { Match.newPlayer "p1" "Alice" with
    inputDebt := [{ x := 1, y := 0, mouse := none }] }

/-- A real input whose `x`/`y` match the debt top but which carries a mouse
(a shot). -/
def mouseSkipPayload : InputPayload :=
  { tick := 5,
    vector := { x := 1, y := 0, mouse := some { x := 400, y := 300, id := "m1" } } }

/-- C1 (counterexample): the claim says an input carrying a mouse field is
applied, not skipped, even when its `x`/`y` equal the debt top
(`skip ⇔ x,y match ∧ mouse undefined`).  The code compares only `x` and `y`:
this payload carries a mouse, matches the top on `x`/`y`, and is *skipped*
(stack popped, no `update` run — the motion state is untouched, and the
shot is lost). -/
theorem skip_despite_mouse :
    (mouseSkipPlayer.consumePayload mouseSkipPayload (1 / 60)).2 = true ∧
      mouseSkipPayload.vector.mouse ≠ none ∧
      mouseSkipPlayer.peekInputDebt =
        some { x := 1, y := 0, mouse := none } ∧
      (mouseSkipPlayer.consumePayload mouseSkipPayload (1 / 60)).1.phys.motion =
        mouseSkipPlayer.phys.motion ∧
      (mouseSkipPlayer.consumePayload mouseSkipPayload (1 / 60)).1.inputDebt =
        [] := by
  refine ⟨?_, ?_, ?_, ?_, ?_⟩ <;> with_unfolding_all decide

/-- C1 (amended): with a non-empty debt stack, a dequeued payload is skipped
*iff* the stack top matches the payload vector on `x` and `y` — the `mouse`
field is not consulted.  A skipped input pops the stack and runs no update
(motion unchanged). -/
theorem debt_skip_iff_xy_match (p : Player) (pl : InputPayload) (dt : ℚ)
    (top : InputVector) (h : p.peekInputDebt = some top) :
    ((p.consumePayload pl dt).2 = true ↔
      (top.x = pl.vector.x ∧ top.y = pl.vector.y)) ∧
    ((p.consumePayload pl dt).2 = true →
      (p.consumePayload pl dt).1.phys.motion = p.phys.motion ∧
      (p.consumePayload pl dt).1.inputDebt = p.inputDebt.tail) := by
  simp only [Player.consumePayload, h]
  by_cases hx : top.x = pl.vector.x
  · by_cases hy : top.y = pl.vector.y
    · simp [hx, hy, shootCheck_motion, Player.popInputDebt, Player.shootCheck,
        Player.resetShooting]
      split <;> simp
    · simp [hx, hy]
  · simp [hx]

/-- C1 (witness): a matching mouse-free payload against debt top `(1, 0)` is
skipped, pops the stack and leaves the motion unchanged. -/
theorem debt_skip_iff_xy_match_witness :
    ((mouseSkipPlayer.consumePayload { tick := 5, vector := ⟨1, 0, none⟩ }
        (1 / 60)).2 = true ↔
      (({ x := 1, y := 0, mouse := none } : InputVector).x =
          (⟨1, 0, none⟩ : InputVector).x ∧
        ({ x := 1, y := 0, mouse := none } : InputVector).y =
          (⟨1, 0, none⟩ : InputVector).y)) ∧
    ((mouseSkipPlayer.consumePayload { tick := 5, vector := ⟨1, 0, none⟩ }
        (1 / 60)).2 = true →
      (mouseSkipPlayer.consumePayload { tick := 5, vector := ⟨1, 0, none⟩ }
          (1 / 60)).1.phys.motion = mouseSkipPlayer.phys.motion ∧
      (mouseSkipPlayer.consumePayload { tick := 5, vector := ⟨1, 0, none⟩ }
          (1 / 60)).1.inputDebt = mouseSkipPlayer.inputDebt.tail) :=
  debt_skip_iff_xy_match mouseSkipPlayer { tick := 5, vector := ⟨1, 0, none⟩ }
    (1 / 60) { x := 1, y := 0, mouse := none } (by with_unfolding_all decide)

/-! ## C9 — projectileHit validation and damage -/

theorem mapSet_map_fst {α : Type} (l : List (String × α)) (k : String) (v : α)
    (h : (mapLookup l k).isSome) :
    (mapSet l k v).map Prod.fst = l.map Prod.fst := by
  induction l with
  | nil => simp [mapLookup] at h
  | cons hd tl ih =>
    by_cases hk : hd.1 = k
    · simp [mapSet, hk]
    · rw [mapLookup, if_neg hk] at h
      simp [mapSet, hk, ih h]

theorem mapLookup_foldl_mapSet_ne {α β : Type} (q : List (String × β))
    (f : String × β → α) (j : String) (h : ∀ e ∈ q, e.1 ≠ j) :
    ∀ ps, mapLookup (q.foldl (fun ps e => mapSet ps e.1 (f e)) ps) j =
      mapLookup ps j := by
  induction q with
  | nil => intro ps; rfl
  | cons e q ih =>
    intro ps
    rw [List.foldl_cons, ih (fun x hx => h x (List.mem_cons_of_mem _ hx))]
    exact mapLookup_mapSet_ne ps e.1 j (f e) (h e (List.mem_cons_self _ _))

/-- `checkWinCondition` introduces no player under a key that is neither a
live player nor queued for respawn. -/
theorem checkWin_players_none (s : MatchState) (b : String)
    (hp : mapLookup s.players b = none)
    (hq : mapLookup s.respawnQueue b = none) :
    mapLookup (Match.checkWinCondition s).players b = none := by
  simp only [Match.checkWinCondition]
  split
  · exact hp
  · split
    · exact hp
    · split
      · have hne : ∀ e ∈ s.respawnQueue, e.1 ≠ b :=
          (mapLookup_none_iff _ _).mp hq
        exact (mapLookup_foldl_mapSet_ne s.respawnQueue _ b hne
          s.players).trans hp
      · exact hp

theorem checkWin_respawnQueue_none (s : MatchState) (b : String)
    (hq : mapLookup s.respawnQueue b = none) :
    mapLookup (Match.checkWinCondition s).respawnQueue b = none := by
  simp only [Match.checkWinCondition]
  split
  · exact hq
  · split
    · exact hq
    · split
      · rfl
      · exact hq

/-- Death handling removes the victim from the world (given unique keys and
a victim not already queued for respawn). -/
theorem death_players_none (s : MatchState) (v n k : String)
    (hnd : (s.players.map Prod.fst).Nodup)
    (hq : mapLookup s.respawnQueue v = none) :
    mapLookup (Match.handlePlayerDeath s v n k).players v = none := by
  have h1 : mapLookup (mapErase s.players v) v = none :=
    mapLookup_mapErase_self _ _ hnd
  simp only [Match.handlePlayerDeath, Match.scheulePlayerRespawn]
  split <;> split <;>
    first
    | exact checkWin_players_none _ _ h1 hq
    | exact h1

/-- Death handling always queues the victim for respawn. -/
theorem death_respawnQueue_self (s : MatchState) (v n k : String) :
    mapLookup (Match.handlePlayerDeath s v n k).respawnQueue v = some n := by
  simp only [Match.handlePlayerDeath, Match.scheulePlayerRespawn]
  split <;> split <;> exact mapLookup_mapSet_self _ _ _

/-- C9: a `projectileHit` is dropped with no state change when the reporting
player or the target is absent or the target is a bystander; otherwise the
target's hp drops by exactly 10 (floored at 0) and death handling runs
exactly when the resulting hp is ≤ 0 (removing the target from the world
and queueing its respawn). -/
theorem projectile_hit_spec :
    (∀ (st : MatchState) (a b : String), mapLookup st.players a = none →
      Match.handleProjectileHitF st a b = (st, false)) ∧
    (∀ (st : MatchState) (a b : String), mapLookup st.players b = none →
      Match.handleProjectileHitF st a b = (st, false)) ∧
    (∀ (st : MatchState) (a b : String) (pb : Player),
      mapLookup st.players b = some pb → pb.phys.isBystander = true →
      Match.handleProjectileHitF st a b = (st, false)) ∧
    (∀ (st : MatchState) (a b : String) (pb : Player),
      (st.players.map Prod.fst).Nodup →
      (mapLookup st.players a).isSome = true →
      mapLookup st.players b = some pb → pb.id = b →
      pb.phys.isBystander = false → mapLookup st.respawnQueue b = none →
      (pb.damage 10).phys.hp = max 0 (pb.phys.hp - 10) ∧
      ((Match.handleProjectileHitF st a b).2 = true ↔
        (pb.damage 10).phys.hp ≤ 0) ∧
      ((Match.handleProjectileHitF st a b).2 = false →
        mapLookup (Match.handleProjectileHitF st a b).1.players b =
          some (pb.damage 10)) ∧
      ((Match.handleProjectileHitF st a b).2 = true →
        mapLookup (Match.handleProjectileHitF st a b).1.players b = none ∧
        mapLookup (Match.handleProjectileHitF st a b).1.respawnQueue b =
          some pb.name)) := by
  refine ⟨?_, ?_, ?_, ?_⟩
  · intro st a b h
    simp [Match.handleProjectileHitF, h]
  · intro st a b h
    simp only [Match.handleProjectileHitF]
    cases ha : mapLookup st.players a
    · rfl
    · simp [h]
  · intro st a b pb hb hby
    simp only [Match.handleProjectileHitF]
    cases ha : mapLookup st.players a
    · rfl
    · simp [hb, Match.handleCollisionF, hby]
  · intro st a b pb hnd haS hb hid hby hrq
    subst hid
    obtain ⟨pa, ha⟩ := Option.isSome_iff_exists.mp haS
    have hnd1 : ((mapSet st.players pb.id (pb.damage 10)).map Prod.fst).Nodup := by
      rw [mapSet_map_fst st.players pb.id _ (by rw [hb]; rfl)]
      exact hnd
    simp only [Match.handleProjectileHitF, ha, hb, Match.handleCollisionF,
      hby, Bool.false_eq_true, if_false]
    by_cases hc : (pb.damage 10).phys.hp ≤ 0
    · rw [if_pos hc]
      refine ⟨rfl, iff_of_true rfl hc, ?_, ?_⟩
      · intro h; cases h
      · intro _
        exact ⟨death_players_none _ _ _ _ hnd1 hrq,
          death_respawnQueue_self _ _ _ _⟩
    · rw [if_neg hc]
      refine ⟨rfl, iff_of_false (by simp) hc, ?_, ?_⟩
      · intro _
        exact mapLookup_mapSet_self _ _ _
      · intro h; cases h

/-- A concrete two-player state: a reporter `"a"` and a non-bystander
target `"b"` at full health. -/
def hitState : MatchState :=
  { players := [("a", Match.newPlayer "a" "Ann"),
                ("b", (Match.newPlayer "b" "Bob").setIsBystander false)],
    playerScores := [("a", { kills := 0, deaths := 0, name := "Ann" }),
                     ("b", { kills := 0, deaths := 0, name := "Bob" })],
    projectiles := [], respawnQueue := [], matchIsActive := true,
    matchResetTimeoutSet := false, shouldRemove := false, events := [] }

/-- The target player of `hitState`. -/
def hitTarget : Player := (Match.newPlayer "b" "Bob").setIsBystander false

/-- C9 (witness): the main clause applied to `hitState`: the hit takes the
target from 100 hp to 90, death handling does not run, and the damaged
target stays in the world. -/
theorem projectile_hit_spec_witness :
    (hitTarget.damage 10).phys.hp = max 0 (hitTarget.phys.hp - 10) ∧
    ((Match.handleProjectileHitF hitState "a" "b").2 = true ↔
      (hitTarget.damage 10).phys.hp ≤ 0) ∧
    ((Match.handleProjectileHitF hitState "a" "b").2 = false →
      mapLookup (Match.handleProjectileHitF hitState "a" "b").1.players "b" =
        some (hitTarget.damage 10)) ∧
    ((Match.handleProjectileHitF hitState "a" "b").2 = true →
      mapLookup (Match.handleProjectileHitF hitState "a" "b").1.players "b" =
        none ∧
      mapLookup (Match.handleProjectileHitF hitState "a" "b").1.respawnQueue
        "b" = some hitTarget.name) :=
  projectile_hit_spec.2.2.2 hitState "a" "b" hitTarget
    (by with_unfolding_all decide) (by with_unfolding_all decide)
    (by with_unfolding_all decide) (by with_unfolding_all decide)
    (by with_unfolding_all decide) (by with_unfolding_all decide)

/-! ## C8 — resetMatch -/

theorem foldl_mapSet_lookup_nodup {α β : Type} (g : String × β → α) :
    ∀ (q : List (String × β)) (sc : List (String × α)) (i : String) (p : β),
      (q.map Prod.fst).Nodup → mapLookup q i = some p →
      mapLookup (q.foldl (fun sc e => mapSet sc e.1 (g e)) sc) i =
        some (g (i, p)) := by
  intro q
  induction q with
  | nil => intro sc i p _ h; cases h
  | cons e q ih =>
    intro sc i p hnd h
    simp only [List.map_cons, List.nodup_cons] at hnd
    rw [List.foldl_cons]
    by_cases he : e.1 = i
    · rw [mapLookup, if_pos he] at h
      injection h with h
      have hq : ∀ x ∈ q, x.1 ≠ i := by
        intro x hx hxi
        exact hnd.1 (he ▸ hxi ▸ List.mem_map_of_mem Prod.fst hx)
      rw [mapLookup_foldl_mapSet_ne q g i hq, he, mapLookup_mapSet_self]
      rw [← he, ← h]
    · rw [mapLookup, if_neg he] at h
      exact ih _ i p hnd.2 h

/-- C8: `resetMatch` gives every surviving player 100 hp and a `(0, 0)`
score while leaving position and bystander flag untouched, clears all
projectiles, disarms the reset timer, emits `matchReset`, and returns the
match to the active state. -/
theorem reset_match_spec (st : MatchState)
    (hnd : (st.players.map Prod.fst).Nodup)
    (i : String) (p : Player) (h : mapLookup st.players i = some p) :
    mapLookup (Match.resetMatch st).players i = some p.resetHealth ∧
    p.resetHealth.phys.hp = 100 ∧
    p.resetHealth.phys.motion.x = p.phys.motion.x ∧
    p.resetHealth.phys.motion.y = p.phys.motion.y ∧
    p.resetHealth.phys.isBystander = p.phys.isBystander ∧
    mapLookup (Match.resetMatch st).playerScores i =
      some { kills := 0, deaths := 0, name := p.name } ∧
    (Match.resetMatch st).projectiles = [] ∧
    (Match.resetMatch st).matchIsActive = true ∧
    (Match.resetMatch st).matchResetTimeoutSet = false ∧
    (Match.resetMatch st).events = st.events ++ [GameEvent.matchReset] := by
  refine ⟨?_, rfl, rfl, rfl, rfl, ?_, rfl, rfl, rfl, rfl⟩
  · simp only [Match.resetMatch]
    rw [mapLookup_map_value, h]
    rfl
  · simp only [Match.resetMatch]
    exact foldl_mapSet_lookup_nodup
      (fun e => { kills := 0, deaths := 0, name := e.2.name })
      st.players st.playerScores i p hnd h

/-- C8 (witness): `resetMatch` on the two-player `hitState`, observed at
player `"a"`. -/
theorem reset_match_spec_witness :
    mapLookup (Match.resetMatch hitState).players "a" =
      some (Match.newPlayer "a" "Ann").resetHealth ∧
    (Match.newPlayer "a" "Ann").resetHealth.phys.hp = 100 ∧
    (Match.newPlayer "a" "Ann").resetHealth.phys.motion.x =
      (Match.newPlayer "a" "Ann").phys.motion.x ∧
    (Match.newPlayer "a" "Ann").resetHealth.phys.motion.y =
      (Match.newPlayer "a" "Ann").phys.motion.y ∧
    (Match.newPlayer "a" "Ann").resetHealth.phys.isBystander =
      (Match.newPlayer "a" "Ann").phys.isBystander ∧
    mapLookup (Match.resetMatch hitState).playerScores "a" =
      some { kills := 0, deaths := 0, name := (Match.newPlayer "a" "Ann").name } ∧
    (Match.resetMatch hitState).projectiles = [] ∧
    (Match.resetMatch hitState).matchIsActive = true ∧
    (Match.resetMatch hitState).matchResetTimeoutSet = false ∧
    (Match.resetMatch hitState).events = hitState.events ++ [GameEvent.matchReset] :=
  reset_match_spec hitState (by with_unfolding_all decide) "a"
    (Match.newPlayer "a" "Ann") (by with_unfolding_all decide)

/-! ## C10 — bystander flag monotonicity -/

theorem foldl_mapSet_lookup_cases {α β : Type} (f : String × β → α) :
    ∀ (q : List (String × β)) (ps : List (String × α)) (j : String) (v : α),
      mapLookup (q.foldl (fun ps e => mapSet ps e.1 (f e)) ps) j = some v →
      mapLookup ps j = some v ∨ ∃ e ∈ q, v = f e := by
  intro q
  induction q with
  | nil => intro ps j v h; exact Or.inl h
  | cons e q ih =>
    intro ps j v h
    rw [List.foldl_cons] at h
    rcases ih _ j v h with h' | ⟨e', he', rfl⟩
    · by_cases hj : e.1 = j
      · rw [hj, mapLookup_mapSet_self] at h'
        injection h' with h'
        exact Or.inr ⟨e, List.mem_cons_self _ _, h'.symm⟩
      · rw [mapLookup_mapSet_ne _ _ _ _ hj] at h'
        exact Or.inl h'
    · exact Or.inr ⟨e', List.mem_cons_of_mem _ he', rfl⟩

/-- C10: every player entity is created with `isBystander = true`
(`Player.create` / `addPlayer`'s `Match.newPlayer`), except that the
respawn-timer and win-condition revival paths create their players and
immediately set the flag to `false`; `toggleBystander`, the only handler
that changes the flag, always calls `setIsBystander(false)`.  Consequently
each of these operations leaves any surviving player either untouched or
with the flag `false` — none sets a living player's flag back to `true`. -/
theorem bystander_monotone :
    (∀ (id name : String) (x y : ℚ) (gb : Option Bounds),
      (Player.create id name x y gb).phys.isBystander = true) ∧
    (∀ id name, (Match.newPlayer id name).phys.isBystander = true) ∧
    (∀ (p : Player) (b : Bool), (p.setIsBystander b).phys.isBystander = b) ∧
    (∀ (st : MatchState) (id name j : String) (q : Player),
      mapLookup (Match.respawnTimerFire st id name).players j = some q →
      mapLookup st.players j = some q ∨ q.phys.isBystander = false) ∧
    (∀ (st : MatchState) (j : String) (q : Player),
      mapLookup (Match.checkWinCondition st).players j = some q →
      mapLookup st.players j = some q ∨ q.phys.isBystander = false) ∧
    (∀ (st : MatchState) (id j : String) (q : Player),
      mapLookup (Match.handleToggleBystander st id).players j = some q →
      mapLookup st.players j = some q ∨ q.phys.isBystander = false) := by
  refine ⟨fun _ _ _ _ _ => rfl, fun _ _ => rfl, fun _ _ => rfl, ?_, ?_, ?_⟩
  · intro st id name j q h
    rw [Match.respawnTimerFire] at h
    split at h
    · exact Or.inl h
    · by_cases hj : id = j
      · rw [hj] at h
        rw [mapLookup_mapSet_self] at h
        injection h with h
        exact Or.inr (by rw [← h]; rfl)
      · rw [mapLookup_mapSet_ne _ _ _ _ hj] at h
        exact Or.inl h
  · intro st j q h
    simp only [Match.checkWinCondition] at h
    split at h
    · exact Or.inl h
    · split at h
      · exact Or.inl h
      · split at h
        · rcases foldl_mapSet_lookup_cases _ st.respawnQueue st.players j q h
            with h' | ⟨e, -, rfl⟩
          · exact Or.inl h'
          · exact Or.inr rfl
        · exact Or.inl h
  · intro st id j q h
    rw [Match.handleToggleBystander] at h
    split at h
    · exact Or.inl h
    · by_cases hj : id = j
      · rw [hj] at h
        rw [mapLookup_mapSet_self] at h
        injection h with h
        exact Or.inr (by rw [← h]; rfl)
      · rw [mapLookup_mapSet_ne _ _ _ _ hj] at h
        exact Or.inl h

/-- A match with a queued respawn, for exercising the revival path. -/
def respawnState : MatchState :=
  { hitState with respawnQueue := [("c", "Cal")] }

/-- C10 (witness): the creation clauses evaluated, plus each monotonicity
clause applied at a concrete state — the respawn-timer revival of `"c"`, the
(no-win) win check on `hitState`, and `toggleBystander` on `"a"`. -/
theorem bystander_monotone_witness :
    (Player.create "w" "W" 0 0 none).phys.isBystander = true ∧
    (Match.newPlayer "w" "W").phys.isBystander = true ∧
    ((Match.newPlayer "w" "W").setIsBystander false).phys.isBystander = false ∧
    (mapLookup respawnState.players "c" =
        some ((Match.newPlayer "c" "Cal").setIsBystander false) ∨
      ((Match.newPlayer "c" "Cal").setIsBystander false).phys.isBystander =
        false) ∧
    (mapLookup hitState.players "a" = some (Match.newPlayer "a" "Ann") ∨
      (Match.newPlayer "a" "Ann").phys.isBystander = false) ∧
    (mapLookup hitState.players "a" =
        some ((Match.newPlayer "a" "Ann").setIsBystander false) ∨
      ((Match.newPlayer "a" "Ann").setIsBystander false).phys.isBystander =
        false) :=
  ⟨bystander_monotone.1 "w" "W" 0 0 none,
   bystander_monotone.2.1 "w" "W",
   bystander_monotone.2.2.1 (Match.newPlayer "w" "W") false,
   bystander_monotone.2.2.2.1 respawnState "c" "Cal" "c"
     ((Match.newPlayer "c" "Cal").setIsBystander false)
     (by with_unfolding_all decide),
   bystander_monotone.2.2.2.2.1 hitState "a" (Match.newPlayer "a" "Ann")
     (by with_unfolding_all decide),
   bystander_monotone.2.2.2.2.2 hitState "a" "a"
     ((Match.newPlayer "a" "Ann").setIsBystander false)
     (by with_unfolding_all decide)⟩

/-! ## C2 — idempotence under prediction -/

/-- `shootCheck` only touches `isShooting`. -/
theorem shootCheck_fields (p : Player) :
    p.shootCheck.inputQueue = p.inputQueue ∧
    p.shootCheck.inputDebt = p.inputDebt ∧
    p.shootCheck.platforms = p.platforms ∧
    p.shootCheck.gameBounds = p.gameBounds ∧
    p.shootCheck.phys.motion = p.phys.motion ∧
    p.shootCheck.lastProcessedInput = p.lastProcessedInput := by
  rw [Player.shootCheck]
  split <;> exact ⟨rfl, rfl, rfl, rfl, rfl, rfl⟩

/-- The predicted vector always has `y = 0` and no mouse, so re-predicting
from a recorded prediction predicts the same vector. -/
theorem predVec_shape (p : Player) :
    ({ x := (predVec p).x, y := 0, mouse := none } : InputVector) =
      predVec p := by
  cases hl : p.lastProcessedInput <;> simp [predVec, hl]

/-- With an empty queue a fixed step is the prediction branch. -/
theorem integrateStep_of_queue_nil (p : Player) (dt : ℚ)
    (hq : p.inputQueue = []) :
    p.integrateStep dt = p.predictStep dt := by
  simp only [Player.integrateStep, Player.dequeueInput, hq]

/-- Effect of one non-AFK prediction step: the predicted vector is pushed as
debt, the motion advances by one `update` with that vector, and the
prediction target is unchanged. -/
theorem predictStep_spec (p : Player) (dt : ℚ)
    (hafk : p.isAfk (predVec p) = false) :
    (p.predictStep dt).phys.motion =
      Motion.update p.phys.motion p.platforms p.gameBounds (predVec p) dt ∧
    (p.predictStep dt).inputDebt = predVec p :: p.inputDebt ∧
    (p.predictStep dt).inputQueue = p.inputQueue ∧
    (p.predictStep dt).platforms = p.platforms ∧
    (p.predictStep dt).gameBounds = p.gameBounds ∧
    predVec (p.predictStep dt) = predVec p := by
  have hb : (if p.isAfk (predVec p) = false then p.addInputDebt (predVec p)
      else p) = p.addInputDebt (predVec p) := if_pos hafk
  simp only [Player.predictStep, hb]
  refine ⟨?_, ?_, ?_, ?_, ?_, ?_⟩
  · split
    · exact (shootCheck_fields _).2.2.2.2.1
    · rfl
  · split
    · exact (shootCheck_fields _).2.1
    · rfl
  · split
    · exact (shootCheck_fields _).1
    · rfl
  · split
    · exact (shootCheck_fields _).2.2.1
    · rfl
  · split
    · exact (shootCheck_fields _).2.2.2.1
    · rfl
  · exact predVec_shape p

/-- The prediction phase: `k` fixed steps on an empty queue, none of them
AFK, advance the motion by `k` ground-truth updates with the (constant)
predicted vector and leave `k` copies of it on the debt stack. -/
theorem predictPhase (dt : ℚ) :
    ∀ (k : ℕ) (p : Player), p.inputQueue = [] →
      (∀ i, i < k → (p.integrateIter dt i).isAfk (predVec p) = false) →
      (p.integrateIter dt k).phys.motion =
        motionRun p.platforms p.gameBounds (predVec p) dt k p.phys.motion ∧
      (p.integrateIter dt k).inputDebt =
        List.replicate k (predVec p) ++ p.inputDebt ∧
      (p.integrateIter dt k).inputQueue = [] ∧
      (p.integrateIter dt k).platforms = p.platforms ∧
      (p.integrateIter dt k).gameBounds = p.gameBounds ∧
      predVec (p.integrateIter dt k) = predVec p := by
  intro k
  induction k with
  | zero =>
    intro p hq _
    exact ⟨rfl, rfl, hq, rfl, rfl, rfl⟩
  | succ n ih =>
    intro p hq hafk
    have hafk0 : p.isAfk (predVec p) = false := by
      have h := hafk 0 (Nat.succ_pos n)
      exact h
    have hstep : p.integrateStep dt = p.predictStep dt :=
      integrateStep_of_queue_nil p dt hq
    obtain ⟨hm, hd, hq', hpl, hgb, hpv⟩ := predictStep_spec p dt hafk0
    have hiter : ∀ j, p.integrateIter dt (j + 1) =
        (p.predictStep dt).integrateIter dt j := by
      intro j
      show (p.integrateStep dt).integrateIter dt j = _
      rw [hstep]
    have hafk' : ∀ i, i < n →
        ((p.predictStep dt).integrateIter dt i).isAfk
          (predVec (p.predictStep dt)) = false := by
      intro i hi
      rw [hpv, ← hiter i]
      exact hafk (i + 1) (Nat.succ_lt_succ hi)
    obtain ⟨im, idb, iq, ipl, igb, ipv⟩ :=
      ih (p.predictStep dt) (hq'.trans hq) hafk'
    rw [hiter n]
    refine ⟨?_, ?_, iq, ipl.trans hpl, igb.trans hgb, ipv.trans hpv⟩
    · rw [im, hpv, hm, hpl, hgb]
      rfl
    · rw [idb, hpv, hd]
      simp [List.replicate_succ', List.append_assoc]
  
/-- The reconciliation phase: as long as every queued payload matches the
debt top on `x`/`y`, each fixed step just pops debt and drops the payload —
the motion never changes. -/
theorem skipPhase (dt : ℚ) (v : InputVector) :
    ∀ (ts : List ℕ) (n : ℕ) (r : Player),
      r.inputQueue = ts.map (fun t => { tick := t, vector := v }) →
      r.inputDebt = List.replicate n v →
      ts.length ≤ n →
      (r.integrateIter dt ts.length).phys.motion = r.phys.motion := by
  intro ts
  induction ts with
  | nil => intro n r _ _ _; rfl
  | cons t ts ih =>
    intro n r hq hd hlen
    cases n with
    | zero => exact absurd hlen (by simp)
    | succ m =>
      have hpeek : ({ r with
          inputQueue := ts.map (fun t => { tick := t, vector := v }) } :
            Player).peekInputDebt = some v := by
        show r.inputDebt.head? = some v
        rw [hd]
        rfl
      have hstep : r.integrateStep dt =
          ({ r with inputQueue := ts.map (fun t => { tick := t, vector := v }) } :
            Player).popInputDebt.shootCheck := by
        simp only [Player.integrateStep, Player.dequeueInput, hq,
          List.map_cons, Player.consumePayload, hpeek, decide_True,
          Bool.and_self, if_true]
        rfl
      have hrest : (r.integrateStep dt).inputQueue =
          ts.map (fun t => { tick := t, vector := v }) := by
        rw [hstep, (shootCheck_fields _).1]
        rfl
      have hdebt : (r.integrateStep dt).inputDebt = List.replicate m v := by
        rw [hstep, (shootCheck_fields _).2.1]
        show r.inputDebt.tail = _
        rw [hd]
        rfl
      have hmot : (r.integrateStep dt).phys.motion = r.phys.motion := by
        rw [hstep, (shootCheck_fields _).2.2.2.2.1]
        rfl
      show ((r.integrateStep dt).integrateIter dt ts.length).phys.motion =
        r.phys.motion
      rw [ih m (r.integrateStep dt) hrest hdebt (Nat.le_of_succ_le_succ hlen),
        hmot]

/-- The ground-truth phase: with an empty debt stack, `k` queued payloads
with the same vector are applied directly, one `update` per fixed step. -/
theorem directPhase (dt : ℚ) (v : InputVector) :
    ∀ (ts : List ℕ) (r : Player),
      r.inputQueue = ts.map (fun t => { tick := t, vector := v }) →
      r.inputDebt = [] →
      (r.integrateIter dt ts.length).phys.motion =
        motionRun r.platforms r.gameBounds v dt ts.length r.phys.motion := by
  intro ts
  induction ts with
  | nil => intro r _ _; rfl
  | cons t ts ih =>
    intro r hq hd
    have hpeek : ({ r with
        inputQueue := ts.map (fun t => { tick := t, vector := v }) } :
          Player).peekInputDebt = none := by
      show r.inputDebt.head? = none
      rw [hd]
      rfl
    have hstep : r.integrateStep dt =
        { ({ r with inputQueue := ts.map (fun t => { tick := t, vector := v }) } :
            Player).update v dt t |>.shootCheck with
          lastProcessedInput := some { tick := t, vector := v } } := by
      simp only [Player.integrateStep, Player.dequeueInput, hq,
        List.map_cons, Player.consumePayload, hpeek]
      rfl
    have hrest : (r.integrateStep dt).inputQueue =
        ts.map (fun t => { tick := t, vector := v }) := by
      rw [hstep]
      show (Player.shootCheck _).inputQueue = _
      rw [(shootCheck_fields _).1]
      rfl
    have hdebt : (r.integrateStep dt).inputDebt = [] := by
      rw [hstep]
      show (Player.shootCheck _).inputDebt = _
      rw [(shootCheck_fields _).2.1]
      exact hd
    have hpl : (r.integrateStep dt).platforms = r.platforms := by
      rw [hstep]
      show (Player.shootCheck _).platforms = _
      rw [(shootCheck_fields _).2.2.1]
      rfl
    have hgb : (r.integrateStep dt).gameBounds = r.gameBounds := by
      rw [hstep]
      show (Player.shootCheck _).gameBounds = _
      rw [(shootCheck_fields _).2.2.2.1]
      rfl
    have hmot : (r.integrateStep dt).phys.motion =
        Motion.update r.phys.motion r.platforms r.gameBounds v dt := by
      rw [hstep]
      show (Player.shootCheck _).phys.motion = _
      rw [(shootCheck_fields _).2.2.2.2.1]
      rfl
    show ((r.integrateStep dt).integrateIter dt ts.length).phys.motion = _
    rw [ih (r.integrateStep dt) hrest hdebt, hpl, hgb, hmot]
    rfl

/-- C2: idempotence under prediction.  Start from any player state with
empty queue and empty debt.  Let the server run `k` predictive fixed steps
(each pushing the predicted vector — i.e. none of them AFK), then let the
client's real inputs arrive: one payload per remaining fixed step, each
equal to the predicted vector.  After consuming all of them the position
`(x, y)` is identical to the run with no predictive steps in which those
same payloads are applied directly: each matching input pops the stack
without a second application. -/
theorem prediction_idempotent (p : Player) (dt : ℚ) (k : ℕ) (ts : List ℕ)
    (hq : p.inputQueue = []) (hd : p.inputDebt = [])
    (hts : ts.length = k)
    (hafk : ∀ i, i < k → (p.integrateIter dt i).isAfk (predVec p) = false) :
    (Player.integrateIter
        { p.integrateIter dt k with
          inputQueue :=
            ts.map (fun t => { tick := t, vector := predVec p }) }
        dt k).phys.motion.x =
      (Player.integrateIter
        { p with
          inputQueue :=
            ts.map (fun t => { tick := t, vector := predVec p }) }
        dt k).phys.motion.x ∧
    (Player.integrateIter
        { p.integrateIter dt k with
          inputQueue :=
            ts.map (fun t => { tick := t, vector := predVec p }) }
        dt k).phys.motion.y =
      (Player.integrateIter
        { p with
          inputQueue :=
            ts.map (fun t => { tick := t, vector := predVec p }) }
        dt k).phys.motion.y := by
  obtain ⟨hm, hdb, -, -, -, -⟩ := predictPhase dt k p hq hafk
  have hdebt : ({ p.integrateIter dt k with
      inputQueue := ts.map (fun t => { tick := t, vector := predVec p }) } :
        Player).inputDebt = List.replicate k (predVec p) := by
    show (p.integrateIter dt k).inputDebt = _
    rw [hdb, hd, List.append_nil]
  have hserver := skipPhase dt (predVec p) ts k
    { p.integrateIter dt k with
      inputQueue := ts.map (fun t => { tick := t, vector := predVec p }) }
    rfl hdebt (le_of_eq hts)
  have hdirect := directPhase dt (predVec p) ts
    { p with
      inputQueue := ts.map (fun t => { tick := t, vector := predVec p }) }
    rfl hd
  rw [hts] at hserver hdirect
  have hsm : ({ p.integrateIter dt k with
      inputQueue := ts.map (fun t => { tick := t, vector := predVec p }) } :
        Player).phys.motion =
      motionRun p.platforms p.gameBounds (predVec p) dt k p.phys.motion := hm
  have hdm : motionRun
      ({ p with
        inputQueue := ts.map (fun t => { tick := t, vector := predVec p }) } :
          Player).platforms
      ({ p with
        inputQueue := ts.map (fun t => { tick := t, vector := predVec p }) } :
          Player).gameBounds (predVec p) dt k
      ({ p with
        inputQueue := ts.map (fun t => { tick := t, vector := predVec p }) } :
          Player).phys.motion =
      motionRun p.platforms p.gameBounds (predVec p) dt k p.phys.motion := rfl
  rw [hserver, hsm, hdirect, hdm]
  exact ⟨rfl, rfl⟩

/-- A player whose last processed input was a rightward walk (so every
prediction pushes debt: the predicted vector has `x = 1 ≠ 0`). -/
def predPlayer : Player :=
  { Match.newPlayer "p1" "Alice" with
    lastProcessedInput :=
      some { tick := 1, vector := { x := 1, y := 0, mouse := none } } }

/-- C2 (witness): two predictive steps followed by the two matching real
inputs land on the same `(x, y)` as applying the two inputs directly. -/
theorem prediction_idempotent_witness :
    (Player.integrateIter
        { predPlayer.integrateIter (1 / 60) 2 with
          inputQueue :=
            [2, 3].map (fun t => { tick := t, vector := predVec predPlayer }) }
        (1 / 60) 2).phys.motion.x =
      (Player.integrateIter
        { predPlayer with
          inputQueue :=
            [2, 3].map (fun t => { tick := t, vector := predVec predPlayer }) }
        (1 / 60) 2).phys.motion.x ∧
    (Player.integrateIter
        { predPlayer.integrateIter (1 / 60) 2 with
          inputQueue :=
            [2, 3].map (fun t => { tick := t, vector := predVec predPlayer }) }
        (1 / 60) 2).phys.motion.y =
      (Player.integrateIter
        { predPlayer with
          inputQueue :=
            [2, 3].map (fun t => { tick := t, vector := predVec predPlayer }) }
        (1 / 60) 2).phys.motion.y :=
  prediction_idempotent predPlayer (1 / 60) 2 [2, 3] rfl rfl rfl
    (by with_unfolding_all decide)

end GameServer
